import Mathlib

/-!
Shallow embedding of the NutriBuddy FastAPI backend (backend/api/main.py,
shipped inside the repository bundle). The backend keeps one piece of
mutable state, the module-level dictionary
`conversation_store : dict[str, List[MessageHistory]]`, and exposes the
chat, streaming-chat, history, clear-history and thread-creation
endpoints over it. Handlers are embedded as pure state-passing
functions: each takes the store (an association list mirroring the
Python dict, whose keys stay pairwise distinct) together with the
values the handler obtains from its environment (`uuid.uuid4()` results
and `datetime.utcnow().isoformat()` timestamps become explicit
arguments), and returns its response paired with the updated store.
FastAPI handlers may in principle raise `HTTPException`; the embedded
handlers therefore return in an `Except HTTPError` where a raise would
be, so that absence of failure is a provable statement.
-/

namespace NutriBuddy

/-- Pydantic model `MessageHistory`: one stored chat message. -/
structure MessageHistory where
  role : String
  content : String
  timestamp : String
  image_path : Option String
deriving DecidableEq

/-- Pydantic model `ChatRequest`: body of POST /api/chat and /api/chat/stream. -/
structure ChatRequest where
  message : String
  thread_id : Option String
deriving DecidableEq

/-- Pydantic model `ChatResponse`: body returned by POST /api/chat. -/
structure ChatResponse where
  response : String
  thread_id : String
  image_path : Option String
deriving DecidableEq

/-- Pydantic model `HistoryResponse`: body returned by GET /api/history/{thread_id}. -/
structure HistoryResponse where
  thread_id : String
  message_count : Nat
  messages : List MessageHistory
deriving DecidableEq

/-- Body returned by DELETE /api/history/{thread_id}. -/
structure StatusMessage where
  status : String
  message : String
deriving DecidableEq

/-- Body returned by POST /api/threads. -/
structure ThreadCreated where
  thread_id : String
  created_at : String
deriving DecidableEq

/-- FastAPI `HTTPException` payload. -/
structure HTTPError where
  status_code : Nat
  detail : String
deriving DecidableEq

/-- The module-level `conversation_store` dictionary, embedded as an
association list from thread id to message list (insertion-ordered,
keys pairwise distinct, as in a Python dict). -/
abbrev Store := List (String × List MessageHistory)

/-- Dictionary lookup, `conversation_store.get(k)` / `k in conversation_store`. -/
def storeGet (s : Store) (k : String) : Option (List MessageHistory) :=
  match s with
  | [] => none
  | (k', v) :: t => if k' = k then some v else storeGet t k

/-- Dictionary write `conversation_store[k] = v`: replace in place if the key
exists, otherwise insert at the end (Python dicts preserve insertion order). -/
def storeSet (s : Store) (k : String) (v : List MessageHistory) : Store :=
  match s with
  | [] => [(k, v)]
  | (k', v') :: t => if k' = k then (k, v) :: t else (k', v') :: storeSet t k v

/-- Dictionary deletion `del conversation_store[k]` (drops the unique entry
for `k`; on an absent key the handler never calls this). -/
def storeErase (s : Store) (k : String) : Store :=
  match s with
  | [] => []
  | (k', v') :: t => if k' = k then t else (k', v') :: storeErase t k

/-- List mutation `conversation_store[k].append(m)`. -/
def storeAppend (s : Store) (k : String) (m : MessageHistory) : Store :=
  storeSet s k (((storeGet s k).getD []) ++ [m])

/-- Python `request.thread_id or str(uuid.uuid4())`: `or` takes the
generated id both when `thread_id` is absent and when it is the empty
string (falsy). -/
def pyOr (o : Option String) (d : String) : String :=
  match o with
  | some t => if t = "" then d else t
  | none => d

/-- Python `str.lower()` (ASCII case folding suffices for the source's
keyword matching). -/
def pyLower (s : String) : String := ⟨s.data.map Char.toLower⟩

/-- Helper for substring search: does `needle` occur at the head of `hay`? -/
def substrAt : List Char → List Char → Bool
  | [], _ => true
  | _ :: _, [] => false
  | a :: as, b :: bs => a = b && substrAt as bs

/-- Helper for substring search: does `needle` occur anywhere in `hay`? -/
def hasSub (hay needle : List Char) : Bool :=
  match hay with
  | [] => needle.isEmpty
  | _ :: t => substrAt needle hay || hasSub t needle

/-- Python `sub in s` on strings: substring containment. -/
def strContains (s sub : String) : Bool := hasSub s.data sub.data

/-- Placeholder image URL used by the /api/chat stub. -/
def placeholderImage : String :=
  "https://via.placeholder.com/300x400.png?text=Nutrition+Label"

/-- Keyword-matching response generation inside the `chat` handler
(lines choosing `response_text` and `image_path` from
`user_msg_lower`), returned as (response_text, image_path). -/
def genResponse (message : String) : String × Option String :=
  let user_msg_lower := pyLower message
  if ["avocado", "salmon", "chicken", "milk", "find", "search"].any
      (fun word => strContains user_msg_lower word) then
    ("I found nutritional information for your search! Here\x27s a sample nutrition label I generated.",
     some placeholderImage)
  else if strContains user_msg_lower "label" || strContains user_msg_lower "generate"
      || strContains user_msg_lower "create" then
    ("I\x27ve generated a nutrition label for you. You can see the label image below and download it.",
     some placeholderImage)
  else if strContains user_msg_lower "compare" then
    ("Here\x27s a comparison of the nutritional values:\n\n**Salmon (100g):**\n- Protein: 20g\n- Fat: 13g\n- Calories: 208\n\n**Chicken Breast (100g):**\n- Protein: 31g\n- Fat: 3.6g\n- Calories: 165\n\nChicken breast has more protein and fewer calories, while salmon provides healthy omega-3 fats!",
     none)
  else if strContains user_msg_lower "hello" || strContains user_msg_lower "hi" then
    ("Hello! I\x27m your nutrition assistant. I can help you search for foods in the USDA database and create nutrition labels. Try asking me to find a specific food!",
     none)
  else if strContains user_msg_lower "help" then
    ("I can help you with:\n\n🔍 **Search foods** - \"Find avocado\"\n📊 **Create labels** - \"Create a nutrition label for banana\"\n⚖️ **Compare foods** - \"Compare protein in salmon vs chicken\"\n\nJust ask away!",
     none)
  else
    ("I can help you search for foods and create nutrition labels. Try asking something like \"Find avocado and create a nutrition label\" or \"Compare salmon and chicken breast\"!",
     none)

/-- Body of the POST /api/chat handler (`chat` in the source): resolve the
thread id, initialise the thread if absent, append the user message
(timestamp `ts1`), compute the canned response, append the assistant
message (timestamp `ts2`, with the `image_path` attached), and return the
`ChatResponse`. `genId` is the `str(uuid.uuid4())` drawn at the top. -/
def chatRun (req : ChatRequest) (genId ts1 ts2 : String) (s : Store) :
    ChatResponse × Store :=
  let thread_id := pyOr req.thread_id genId
  let s1 := if (storeGet s thread_id).isSome then s else storeSet s thread_id []
  let s2 := storeAppend s1 thread_id ⟨"user", req.message, ts1, none⟩
  let rp := genResponse req.message
  let s3 := storeAppend s2 thread_id ⟨"assistant", rp.1, ts2, rp.2⟩
  (⟨rp.1, thread_id, rp.2⟩, s3)

/-- POST /api/chat. The handler body is wrapped in
`try ... except Exception as e: raise HTTPException(500, str(e))`;
no operation of the embedded body fails, so the except branch is dead and
the handler always returns the body's result. -/
def chat (req : ChatRequest) (genId ts1 ts2 : String) (s : Store) :
    Except HTTPError (ChatResponse × Store) :=
  Except.ok (chatRun req genId ts1 ts2 s)

/-- One frame of the /api/chat/stream response: the JSON object passed to
`json.dumps`, as an insertion-ordered key/value list (every value the
source puts in a frame is a string). -/
abbrev Frame := List (String × String)

/-- JSON object field access on a frame. -/
def frameGet (f : Frame) (k : String) : Option String :=
  match f with
  | [] => none
  | (k', v) :: t => if k' = k then some v else frameGet t k

/-- Token frame `{"type": "token", "data": word + " ", "thread_id": thread_id}`. -/
def tokenFrame (word thread_id : String) : Frame :=
  [("type", "token"), ("data", word ++ " "), ("thread_id", thread_id)]

/-- Completion frame `{"type": "done", "thread_id": thread_id}`. -/
def doneFrame (thread_id : String) : Frame :=
  [("type", "done"), ("thread_id", thread_id)]

/-- Error frame `{"type": "error", "error": str(e)}` from the generator's
except branch. Note: the source builds it without a `thread_id` key. -/
def errorFrame (msg : String) : Frame :=
  [("type", "error"), ("error", msg)]

/-- The canned sentence streamed by the stub. -/
def example_response : String :=
  "I\x27m analyzing your nutrition request. This is an example streaming response that would normally come from the AI agent."

/-- Python `str.split()`: split on whitespace runs, dropping empty pieces. -/
def pySplitAux : List Char → List Char → List String
  | [], acc => if acc.isEmpty then [] else [⟨acc.reverse⟩]
  | c :: rest, acc =>
    if c.isWhitespace then
      (if acc.isEmpty then [] else [⟨acc.reverse⟩]) ++ pySplitAux rest []
    else
      pySplitAux rest (c :: acc)

/-- Python `str.split()` on a string. -/
def pySplit (s : String) : List String := pySplitAux s.data []

/-- The `event_generator` inner coroutine of POST /api/chat/stream. Its body
(yield one token frame per word of the fixed sentence, then one done frame)
sits inside `try ... except Exception as e: yield error-frame`; `exn = some
(k, msg)` models an exception with text `msg` raised after `k` token frames
have been yielded (the awaits between yields are the only suspension
points), `exn = none` the run in which nothing is raised. After the done
frame the body ends, so no exception can follow it. -/
def event_generator (thread_id : String) (exn : Option (Nat × String)) : List Frame :=
  let words := pySplit example_response
  match exn with
  | none => words.map (fun word => tokenFrame word thread_id) ++ [doneFrame thread_id]
  | some (k, msg) => (words.take k).map (fun word => tokenFrame word thread_id) ++ [errorFrame msg]

/-- POST /api/chat/stream: resolve the thread id exactly as `chat` does and
return the generator's frames. The handler never reads or writes
`conversation_store`, so the store passes through unchanged. -/
def chat_stream (req : ChatRequest) (genId : String) (exn : Option (Nat × String))
    (s : Store) : List Frame × Store :=
  let thread_id := pyOr req.thread_id genId
  (event_generator thread_id exn, s)

/-- Body of GET /api/history/{thread_id}: `conversation_store.get(thread_id, [])`
and a `HistoryResponse` from it; the store is not written. -/
def get_historyRun (thread_id : String) (s : Store) : HistoryResponse × Store :=
  let messages := (storeGet s thread_id).getD []
  (⟨thread_id, messages.length, messages⟩, s)

/-- GET /api/history/{thread_id}. The handler body contains no raise, so it
always returns. -/
def get_history (thread_id : String) (s : Store) :
    Except HTTPError (HistoryResponse × Store) :=
  Except.ok (get_historyRun thread_id s)

/-- Body of DELETE /api/history/{thread_id}: delete the entry when present,
report success either way. -/
def clear_historyRun (thread_id : String) (s : Store) : StatusMessage × Store :=
  if (storeGet s thread_id).isSome then
    (⟨"success", "History cleared for thread " ++ thread_id⟩, storeErase s thread_id)
  else
    (⟨"success", "No history found for this thread"⟩, s)

/-- DELETE /api/history/{thread_id}. The handler body contains no raise. -/
def clear_history (thread_id : String) (s : Store) :
    Except HTTPError (StatusMessage × Store) :=
  Except.ok (clear_historyRun thread_id s)

/-- POST /api/threads: store an empty history under a fresh
`str(uuid.uuid4())` and return it with a creation timestamp. -/
def create_threadRun (genId ts : String) (s : Store) : ThreadCreated × Store :=
  (⟨genId, ts⟩, storeSet s genId [])

/-- The user message a chat turn stores for input `m` at timestamp `ts`. -/
def userMsg (m ts : String) : MessageHistory :=
  ⟨"user", m, ts, none⟩

/-- The assistant message a chat turn stores for input `m` at timestamp `ts`. -/
def asstMsg (m ts : String) : MessageHistory :=
  ⟨"assistant", (genResponse m).1, ts, (genResponse m).2⟩

/-- The two messages one POST /api/chat turn appends, for a turn described
by (message, user timestamp, assistant timestamp). -/
def turnMsgs (t : String × String × String) : List MessageHistory :=
  [userMsg t.1 t.2.1, asstMsg t.1 t.2.2]

/-- A sequence of POST /api/chat calls against the fixed thread id `tid`,
each described by (message, user timestamp, assistant timestamp). -/
def chatTurns (tid : String) (turns : List (String × String × String)) (s : Store) : Store :=
  turns.foldl (fun acc t => (chatRun ⟨t.1, some tid⟩ "" t.2.1 t.2.2 acc).2) s

/-- Is a frame terminal, i.e. a done or error frame? -/
def isTerminal (f : Frame) : Bool :=
  frameGet f "type" == some "done" || frameGet f "type" == some "error"

/-- Lexicographic order on character lists (total: ties broken by length). -/
def lexLe : List Char → List Char → Bool
  | [], _ => true
  | _ :: _, [] => false
  | a :: as, b :: bs => if a = b then lexLe as bs else decide (a.val < b.val)

/-- Lexicographic string comparison; ISO-8601 timestamps from
`datetime.utcnow().isoformat()` compare chronologically under it. -/
def strLe (a b : String) : Bool := lexLe a.data b.data

/-- Does a message list strictly alternate user, assistant, user, assistant,
…, closing each user message with its assistant answer? -/
def altB : List MessageHistory → Bool
  | [] => true
  | u :: a :: rest => u.role == "user" && a.role == "assistant" && altB rest
  | [_] => false

/-- Are the timestamps along a message list non-decreasing? -/
def tsChain (h : List MessageHistory) : Prop :=
  List.Chain' (fun a b => strLe a.timestamp b.timestamp = true) h

/-- The history invariant claimed for every session: strict user/assistant
alternation and non-decreasing timestamps. -/
def goodHistory (h : List MessageHistory) : Prop :=
  altB h = true ∧ tsChain h

/-- The keys (thread ids) of the store. -/
def storeKeys (s : Store) : List String := s.map Prod.fst

/-- Every message stored in any session of the store. -/
def storeMsgs (s : Store) : List MessageHistory := (s.map Prod.snd).flatten

/-- One store-mutating API operation: a POST /api/chat turn, a POST
/api/threads creation, or a DELETE /api/history/{thread_id} clear. -/
inductive Op where
  | chatOp (message : String) (tid : Option String) (genId ts1 ts2 : String)
  | createOp (genId ts : String)
  | clearOp (tid : String)

/-- Effect of one operation on the conversation store. -/
def applyOp (s : Store) : Op → Store
  | .chatOp m tid genId ts1 ts2 => (chatRun ⟨m, tid⟩ genId ts1 ts2 s).2
  | .createOp genId ts => (create_threadRun genId ts s).2
  | .clearOp tid => (clear_historyRun tid s).2

/-- Effect of a sequence of operations on the conversation store. -/
def runOps (s : Store) : List Op → Store
  | [] => s
  | op :: ops => runOps (applyOp s op) ops

/-- Environment assumptions under which one operation runs: a chat turn
draws its two `utcnow()` timestamps in order and after every timestamp
already stored (the clock is monotone), and thread creation draws a
`uuid.uuid4()` that collides with no live session. -/
def okOp (s : Store) : Op → Prop
  | .chatOp _ _ _ ts1 ts2 =>
      strLe ts1 ts2 = true ∧ ∀ m ∈ storeMsgs s, strLe m.timestamp ts1 = true
  | .createOp genId _ => storeGet s genId = none
  | .clearOp _ => True

/-- Environment assumptions along a whole operation sequence. -/
def okRun (s : Store) : List Op → Prop
  | [] => True
  | op :: ops => okOp s op ∧ okRun (applyOp s op) ops

/-- Store invariant: keys are pairwise distinct (it is a dict) and every
session history is alternating with non-decreasing timestamps. -/
def Inv (s : Store) : Prop :=
  (storeKeys s).Nodup ∧ ∀ tid h, storeGet s tid = some h → goodHistory h

theorem storeGet_storeSet_self (s : Store) (k : String) (v : List MessageHistory) :
    storeGet (storeSet s k v) k = some v := by
  induction s with
  | nil => simp [storeSet, storeGet]
  | cons p t ih =>
    obtain ⟨k', v'⟩ := p
    by_cases h : k' = k
    · simp [storeSet, h, storeGet]
    · simp [storeSet, h, storeGet, ih]

theorem storeGet_storeSet_ne (s : Store) (k k' : String) (v : List MessageHistory)
    (h : k' ≠ k) : storeGet (storeSet s k v) k' = storeGet s k' := by
  induction s with
  | nil => simp [storeSet, storeGet, Ne.symm h]
  | cons p t ih =>
    obtain ⟨a, b⟩ := p
    by_cases ha : a = k
    · subst ha
      simp [storeSet, storeGet, Ne.symm h]
    · simp only [storeSet, if_neg ha, storeGet, ih]

theorem storeGet_eq_none_of_not_mem (s : Store) (k : String)
    (h : k ∉ storeKeys s) : storeGet s k = none := by
  induction s with
  | nil => simp [storeGet]
  | cons p t ih =>
    obtain ⟨a, b⟩ := p
    simp only [storeKeys, List.map_cons, List.mem_cons, not_or] at h
    simp only [storeGet, if_neg (Ne.symm h.1)]
    exact ih (by simpa [storeKeys] using h.2)

theorem storeGet_storeErase_ne (s : Store) (k k' : String) (h : k' ≠ k) :
    storeGet (storeErase s k) k' = storeGet s k' := by
  induction s with
  | nil => simp [storeErase]
  | cons p t ih =>
    obtain ⟨a, b⟩ := p
    by_cases ha : a = k
    · subst ha
      simp [storeErase, storeGet, Ne.symm h]
    · simp only [storeErase, if_neg ha, storeGet, ih]

theorem storeGet_storeErase_self (s : Store) (k : String)
    (hnd : (storeKeys s).Nodup) : storeGet (storeErase s k) k = none := by
  induction s with
  | nil => simp [storeErase, storeGet]
  | cons p t ih =>
    obtain ⟨a, b⟩ := p
    simp only [storeKeys, List.map_cons, List.nodup_cons] at hnd
    by_cases ha : a = k
    · subst ha
      simp only [storeErase, if_pos rfl]
      exact storeGet_eq_none_of_not_mem t a hnd.1
    · simp only [storeErase, if_neg ha, storeGet, if_neg ha]
      exact ih hnd.2

theorem storeErase_sublist (s : Store) (k : String) : List.Sublist (storeErase s k) s := by
  induction s with
  | nil => simp [storeErase]
  | cons p t ih =>
    obtain ⟨a, b⟩ := p
    by_cases ha : a = k
    · simp only [storeErase, if_pos ha]
      exact List.sublist_cons_self _ _
    · simp only [storeErase, if_neg ha]
      exact ih.cons₂ _

theorem storeErase_of_none (s : Store) (k : String) (h : storeGet s k = none) :
    storeErase s k = s := by
  induction s with
  | nil => simp [storeErase]
  | cons p t ih =>
    obtain ⟨a, b⟩ := p
    simp only [storeGet] at h
    by_cases ha : a = k
    · simp [ha] at h
    · simp only [storeErase, if_neg ha]
      rw [ih (by simpa [ha] using h)]

theorem storeKeys_storeSet (s : Store) (k : String) (v : List MessageHistory) :
    storeKeys (storeSet s k v)
      = if k ∈ storeKeys s then storeKeys s else storeKeys s ++ [k] := by
  induction s with
  | nil => simp [storeSet, storeKeys]
  | cons p t ih =>
    obtain ⟨a, b⟩ := p
    by_cases ha : a = k
    · subst ha
      simp [storeSet, storeKeys]
    · have ih' : List.map Prod.fst (storeSet t k v)
          = if k ∈ List.map Prod.fst t then List.map Prod.fst t
            else List.map Prod.fst t ++ [k] := by
        simpa [storeKeys] using ih
      simp only [storeSet, if_neg ha, storeKeys, List.map_cons, List.mem_cons, ih']
      by_cases hk : k ∈ List.map Prod.fst t
      · simp [hk]
      · simp [hk, Ne.symm ha]

theorem storeKeys_nodup_storeSet (s : Store) (k : String) (v : List MessageHistory)
    (h : (storeKeys s).Nodup) : (storeKeys (storeSet s k v)).Nodup := by
  rw [storeKeys_storeSet]
  by_cases hk : k ∈ storeKeys s
  · simpa [hk] using h
  · simpa [hk] using List.Nodup.append h (by simp) (by simpa using hk)

theorem storeKeys_nodup_storeErase (s : Store) (k : String)
    (h : (storeKeys s).Nodup) : (storeKeys (storeErase s k)).Nodup :=
  ((storeErase_sublist s k).map Prod.fst).nodup h

theorem mem_storeMsgs_of_storeGet (s : Store) (tid : String) (h : List MessageHistory)
    (hh : storeGet s tid = some h) (m : MessageHistory) (hm : m ∈ h) :
    m ∈ storeMsgs s := by
  induction s with
  | nil => simp [storeGet] at hh
  | cons p t ih =>
    obtain ⟨a, b⟩ := p
    simp only [storeGet] at hh
    by_cases ha : a = tid
    · rw [if_pos ha] at hh
      cases hh
      exact List.mem_append.mpr (Or.inl hm)
    · rw [if_neg ha] at hh
      exact List.mem_append.mpr (Or.inr (ih hh))

theorem storeGet_ensure (s : Store) (tid : String) :
    storeGet (if (storeGet s tid).isSome then s else storeSet s tid []) tid
      = some ((storeGet s tid).getD []) := by
  cases h : storeGet s tid with
  | none => simp [h, storeGet_storeSet_self]
  | some v => simp [h]

theorem chatRun_fst (req : ChatRequest) (genId ts1 ts2 : String) (s : Store) :
    (chatRun req genId ts1 ts2 s).1
      = ⟨(genResponse req.message).1, pyOr req.thread_id genId,
         (genResponse req.message).2⟩ := rfl

theorem chatRun_storeGet_self (req : ChatRequest) (genId ts1 ts2 : String) (s : Store) :
    storeGet (chatRun req genId ts1 ts2 s).2 (pyOr req.thread_id genId)
      = some (((storeGet s (pyOr req.thread_id genId)).getD [])
          ++ [userMsg req.message ts1, asstMsg req.message ts2]) := by
  simp only [chatRun, storeAppend]
  rw [storeGet_storeSet_self, storeGet_storeSet_self, storeGet_ensure]
  simp [userMsg, asstMsg]

theorem chatRun_storeGet_ne (req : ChatRequest) (genId ts1 ts2 : String) (s : Store)
    (k : String) (h : k ≠ pyOr req.thread_id genId) :
    storeGet (chatRun req genId ts1 ts2 s).2 k = storeGet s k := by
  simp only [chatRun, storeAppend]
  rw [storeGet_storeSet_ne _ _ _ _ h, storeGet_storeSet_ne _ _ _ _ h]
  cases hh : (storeGet s (pyOr req.thread_id genId)).isSome with
  | true => simp [hh]
  | false => simp [hh, storeGet_storeSet_ne _ _ _ _ h]

theorem chatRun_storeKeys_nodup (req : ChatRequest) (genId ts1 ts2 : String) (s : Store)
    (h : (storeKeys s).Nodup) : (storeKeys (chatRun req genId ts1 ts2 s).2).Nodup := by
  simp only [chatRun, storeAppend]
  apply storeKeys_nodup_storeSet
  apply storeKeys_nodup_storeSet
  cases hh : (storeGet s (pyOr req.thread_id genId)).isSome with
  | true => simpa [hh] using h
  | false => simp only [hh, if_neg Bool.false_ne_true]; exact storeKeys_nodup_storeSet _ _ _ h

theorem altB_append2 (u a : MessageHistory) (hu : u.role = "user")
    (ha : a.role = "assistant") (h : List MessageHistory) (hh : altB h = true) :
    altB (h ++ [u, a]) = true := by
  induction h using altB.induct with
  | case1 => simp [altB, hu, ha]
  | case2 x y rest ih => simp_all [altB]
  | case3 x => simp [altB] at hh

theorem tsChain_append2 (u a : MessageHistory) (h : List MessageHistory)
    (hch : tsChain h) (hlast : ∀ m ∈ h, strLe m.timestamp u.timestamp = true)
    (hua : strLe u.timestamp a.timestamp = true) : tsChain (h ++ [u, a]) := by
  unfold tsChain at hch ⊢
  rw [List.chain'_append]
  refine ⟨hch, List.chain'_pair.mpr hua, ?_⟩
  intro x hx y hy
  simp only [List.head?_cons, Option.mem_def, Option.some.injEq] at hy
  subst hy
  exact hlast x (List.mem_of_mem_getLast? hx)

theorem goodHistory_nil : goodHistory [] := by
  constructor
  · rfl
  · simp [tsChain]

theorem applyOp_Inv (s : Store) (op : Op) (hs : Inv s) (hop : okOp s op) :
    Inv (applyOp s op) := by
  obtain ⟨hnd, hgood⟩ := hs
  cases op with
  | chatOp m tid genId ts1 ts2 =>
    obtain ⟨h12, hall⟩ := hop
    refine ⟨chatRun_storeKeys_nodup _ _ _ _ _ hnd, ?_⟩
    intro k h hk
    by_cases hkt : k = pyOr tid genId
    · subst hkt
      rw [show applyOp s (Op.chatOp m tid genId ts1 ts2)
            = (chatRun ⟨m, tid⟩ genId ts1 ts2 s).2 from rfl,
          chatRun_storeGet_self] at hk
      injection hk with hk
      subst hk
      cases hbase : storeGet s (pyOr tid genId) with
      | none =>
        simp only [hbase, Option.getD_none, List.nil_append]
        refine ⟨altB_append2 _ _ rfl rfl [] rfl, ?_⟩
        exact tsChain_append2 _ _ [] (by simp [tsChain]) (by simp) h12
      | some hb =>
        obtain ⟨halt, hch⟩ := hgood _ _ hbase
        simp only [hbase, Option.getD_some]
        refine ⟨altB_append2 _ _ rfl rfl hb halt, ?_⟩
        exact tsChain_append2 _ _ hb hch
          (fun mm hmm => hall mm (mem_storeMsgs_of_storeGet _ _ _ hbase mm hmm)) h12
    · rw [show applyOp s (Op.chatOp m tid genId ts1 ts2)
            = (chatRun ⟨m, tid⟩ genId ts1 ts2 s).2 from rfl,
          chatRun_storeGet_ne _ _ _ _ _ _ hkt] at hk
      exact hgood _ _ hk
  | createOp genId ts =>
    refine ⟨storeKeys_nodup_storeSet _ _ _ hnd, ?_⟩
    intro k h hk
    by_cases hkg : k = genId
    · rw [show applyOp s (Op.createOp genId ts) = storeSet s genId [] from rfl] at hk
      subst hkg
      rw [storeGet_storeSet_self] at hk
      injection hk with hk
      subst hk
      exact goodHistory_nil
    · rw [show applyOp s (Op.createOp genId ts) = storeSet s genId [] from rfl,
          storeGet_storeSet_ne _ _ _ _ hkg] at hk
      exact hgood _ _ hk
  | clearOp tid =>
    simp only [applyOp, clear_historyRun]
    by_cases hh : (storeGet s tid).isSome
    · simp only [hh, if_pos]
      refine ⟨storeKeys_nodup_storeErase _ _ hnd, ?_⟩
      intro k h hk
      by_cases hkt : k = tid
      · subst hkt
        rw [storeGet_storeErase_self _ _ hnd] at hk
        cases hk
      · rw [storeGet_storeErase_ne _ _ _ hkt] at hk
        exact hgood _ _ hk
    · simp only [hh, if_neg Bool.false_ne_true]
      exact ⟨hnd, hgood⟩

theorem runOps_Inv (ops : List Op) (s : Store) (hs : Inv s) (hok : okRun s ops) :
    Inv (runOps s ops) := by
  induction ops generalizing s with
  | nil => exact hs
  | cons op rest ih => exact ih _ (applyOp_Inv s op hs hok.1) hok.2

theorem applyOp_extends (s : Store) (op : Op) (hs : Inv s) (hop : okOp s op)
    (tid : String) (h : List MessageHistory) (hget : storeGet s tid = some h) :
    storeGet (applyOp s op) tid = none ∨
      ∃ tl, storeGet (applyOp s op) tid = some (h ++ tl) := by
  cases op with
  | chatOp m rtid genId ts1 ts2 =>
    right
    by_cases hkt : tid = pyOr rtid genId
    · refine ⟨[userMsg m ts1, asstMsg m ts2], ?_⟩
      subst hkt
      rw [show applyOp s (Op.chatOp m rtid genId ts1 ts2)
            = (chatRun ⟨m, rtid⟩ genId ts1 ts2 s).2 from rfl,
          chatRun_storeGet_self, hget]
      rfl
    · refine ⟨[], ?_⟩
      rw [show applyOp s (Op.chatOp m rtid genId ts1 ts2)
            = (chatRun ⟨m, rtid⟩ genId ts1 ts2 s).2 from rfl,
          chatRun_storeGet_ne _ _ _ _ _ _ hkt, hget, List.append_nil]
  | createOp genId ts =>
    right
    refine ⟨[], ?_⟩
    have hne : tid ≠ genId := by
      intro hh
      rw [hh, hop] at hget
      cases hget
    rw [show applyOp s (Op.createOp genId ts) = storeSet s genId [] from rfl,
        storeGet_storeSet_ne _ _ _ _ hne, hget, List.append_nil]
  | clearOp k =>
    simp only [applyOp, clear_historyRun]
    by_cases hh : (storeGet s k).isSome
    · simp only [hh, if_pos]
      by_cases hkt : tid = k
      · subst hkt
        exact Or.inl (storeGet_storeErase_self _ _ hs.1)
      · right
        refine ⟨[], ?_⟩
        rw [storeGet_storeErase_ne _ _ _ hkt, hget, List.append_nil]
    · simp only [hh, if_neg Bool.false_ne_true]
      exact Or.inr ⟨[], by rw [hget, List.append_nil]⟩

theorem pyOr_some_ne (tid d : String) (hne : tid ≠ "") : pyOr (some tid) d = tid := by
  simp [pyOr, hne]

theorem chatTurns_storeGet (tid : String) (hne : tid ≠ "")
    (turns : List (String × String × String)) (s : Store) (base : List MessageHistory)
    (h0 : storeGet s tid = some base) :
    storeGet (chatTurns tid turns s) tid
      = some (base ++ (turns.map turnMsgs).flatten) := by
  induction turns generalizing s base with
  | nil => simpa [chatTurns] using h0
  | cons t rest ih =>
    have hthis : storeGet ((chatRun ⟨t.1, some tid⟩ "" t.2.1 t.2.2 s).2) tid
        = some (base ++ turnMsgs t) := by
      have hx := chatRun_storeGet_self ⟨t.1, some tid⟩ "" t.2.1 t.2.2 s
      simpa [pyOr_some_ne tid _ hne, h0, turnMsgs] using hx
    have hrest := ih _ _ hthis
    rw [show chatTurns tid (t :: rest) s
          = chatTurns tid rest ((chatRun ⟨t.1, some tid⟩ "" t.2.1 t.2.2 s).2) from rfl,
        hrest]
    simp

/-- C1: every run of the POST /api/chat/stream event generator, whether it
completes or an exception is raised mid-stream, produces a finite frame
sequence that ends in exactly one terminal (done or error) frame: the
terminal frame is the last frame, no frame before it is terminal, and no
frame follows it. -/
theorem stream_single_terminal_frame (thread_id : String) (exn : Option (Nat × String)) :
    ∃ body last, event_generator thread_id exn = body ++ [last] ∧
      isTerminal last = true ∧ ∀ f ∈ body, isTerminal f = false := by
  cases exn with
  | none =>
    refine ⟨(pySplit example_response).map (fun word => tokenFrame word thread_id),
      doneFrame thread_id, rfl, rfl, ?_⟩
    intro f hf
    obtain ⟨w, _, rfl⟩ := List.mem_map.mp hf
    rfl
  | some p =>
    obtain ⟨k, msg⟩ := p
    refine ⟨((pySplit example_response).take k).map (fun word => tokenFrame word thread_id),
      errorFrame msg, rfl, rfl, ?_⟩
    intro f hf
    obtain ⟨w, _, rfl⟩ := List.mem_map.mp hf
    rfl

/-- C2: running any sequence of POST /api/chat turns against a fresh session
id and then reading GET /api/history/{thread_id} returns exactly the
appended user/assistant message pairs, in insertion order, with the
matching message count: nothing is lost, duplicated or reordered.
(Session ids are nonempty: an empty `thread_id` is falsy in Python, so the
handler would route such a request to a generated uuid instead.) -/
theorem chat_history_returns_appends_in_order (tid : String) (hne : tid ≠ "")
    (turns : List (String × String × String)) (s : Store)
    (h0 : storeGet s tid = none) :
    (get_historyRun tid (chatTurns tid turns s)).1.messages
        = (turns.map turnMsgs).flatten ∧
    (get_historyRun tid (chatTurns tid turns s)).1.message_count
        = (turns.map turnMsgs).flatten.length := by
  cases turns with
  | nil => simp [chatTurns, get_historyRun, h0]
  | cons t rest =>
    have h1 : storeGet ((chatRun ⟨t.1, some tid⟩ "" t.2.1 t.2.2 s).2) tid
        = some (turnMsgs t) := by
      have hx := chatRun_storeGet_self ⟨t.1, some tid⟩ "" t.2.1 t.2.2 s
      simpa [pyOr_some_ne tid _ hne, h0, turnMsgs] using hx
    have h2 := chatTurns_storeGet tid hne rest _ _ h1
    rw [show chatTurns tid (t :: rest) s
          = chatTurns tid rest ((chatRun ⟨t.1, some tid⟩ "" t.2.1 t.2.2 s).2) from rfl]
    simp [get_historyRun, h2]

/-- C2 witness: two concrete chat turns against fresh session "t1". -/
theorem chat_history_returns_appends_in_order_witness :
    (get_historyRun "t1" (chatTurns "t1" [("hello", "a1", "a2"), ("help", "a3", "a4")] [])).1.messages
        = ([("hello", "a1", "a2"), ("help", "a3", "a4")].map turnMsgs).flatten ∧
    (get_historyRun "t1" (chatTurns "t1" [("hello", "a1", "a2"), ("help", "a3", "a4")] [])).1.message_count
        = ([("hello", "a1", "a2"), ("help", "a3", "a4")].map turnMsgs).flatten.length :=
  chat_history_returns_appends_in_order "t1" (by decide)
    [("hello", "a1", "a2"), ("help", "a3", "a4")] [] rfl

/-- C3 counterexample: GET /api/history on the never-created id "ghost"
does not fail with any error: it returns a normal 200 result (an empty
history), refuting the claim that retrieval of an unknown session fails
with UnknownSessionError rather than returning a result. -/
theorem get_history_unknown_returns_result_cex :
    get_history "ghost" [] = Except.ok (⟨"ghost", 0, []⟩, []) := rfl

/-- C3 amended: retrieving the history of a session identifier that was
never created succeeds (no error is raised), returning message_count 0 and
an empty message list. -/
theorem get_history_unknown_succeeds_empty (thread_id : String) (s : Store)
    (h : storeGet s thread_id = none) :
    get_history thread_id s = Except.ok (⟨thread_id, 0, []⟩, s) := by
  simp [get_history, get_historyRun, h]

/-- C3 witness: unknown id "nope" against a store holding only "t1". -/
theorem get_history_unknown_succeeds_empty_witness :
    get_history "nope" [("t1", [])] = Except.ok (⟨"nope", 0, []⟩, [("t1", [])]) :=
  get_history_unknown_succeeds_empty "nope" [("t1", [])] (by decide)

/-- C4 counterexample: a POST /api/chat/stream turn that completes (its
last frame is the done frame) appends nothing to the session history: the
store is untouched and the session's history is still empty afterwards,
refuting the claim that the final answer is appended as an assistant
message for the streaming turn as well. -/
theorem chat_stream_appends_nothing_cex :
    ((chat_stream ⟨"hello", some "t1"⟩ "g" none []).1).getLast? = some (doneFrame "t1") ∧
    (chat_stream ⟨"hello", some "t1"⟩ "g" none []).2 = ([] : Store) ∧
    (get_historyRun "t1" (chat_stream ⟨"hello", some "t1"⟩ "g" none []).2).1.messages = [] := by
  refine ⟨?_, rfl, rfl⟩
  show ((pySplit example_response).map (fun word => tokenFrame word "t1")
      ++ [doneFrame "t1"]).getLast? = some (doneFrame "t1")
  exact List.getLast?_concat _

/-- C4 amended: the synchronous POST /api/chat turn does append the final
answer text to the session as an assistant message, with the returned
image_path attached to that message; the streaming POST /api/chat/stream
turn appends nothing to the session history (its handler never touches the
conversation store). -/
theorem chat_appends_answer_stream_appends_nothing
    (req : ChatRequest) (genId ts1 ts2 : String) (exn : Option (Nat × String)) (s : Store) :
    storeGet (chatRun req genId ts1 ts2 s).2 ((chatRun req genId ts1 ts2 s).1.thread_id)
      = some (((storeGet s ((chatRun req genId ts1 ts2 s).1.thread_id)).getD [])
          ++ [userMsg req.message ts1,
              ⟨"assistant", (chatRun req genId ts1 ts2 s).1.response, ts2,
               (chatRun req genId ts1 ts2 s).1.image_path⟩]) ∧
    (chat_stream req genId exn s).2 = s :=
  ⟨chatRun_storeGet_self req genId ts1 ts2 s, rfl⟩

/-- C5 counterexample: the stream's terminal error frame (exception before
the first token) is `{"type": "error", "error": msg}`: it carries no
thread_id field (and no data field), refuting the claim that every frame,
including the terminal error frame, carries thread_id. -/
theorem stream_error_frame_lacks_thread_id_cex :
    event_generator "t1" (some (0, "boom")) = [errorFrame "boom"] ∧
    frameGet (errorFrame "boom") "thread_id" = none ∧
    frameGet (errorFrame "boom") "type" = some "error" := by
  refine ⟨?_, rfl, rfl⟩
  show ((pySplit example_response).take 0).map (fun word => tokenFrame word "t1")
      ++ [errorFrame "boom"] = [errorFrame "boom"]
  simp

/-- C5 amended: every frame has a type field that is token, done or error;
token and done frames carry the thread_id field, but the error frame does
not (it carries the message under an error key instead). -/
theorem stream_frame_shape (thread_id : String) (exn : Option (Nat × String)) :
    ∀ f ∈ event_generator thread_id exn,
      (frameGet f "type" = some "token" ∨ frameGet f "type" = some "done"
          ∨ frameGet f "type" = some "error") ∧
      (frameGet f "type" ≠ some "error" → frameGet f "thread_id" = some thread_id) ∧
      (frameGet f "type" = some "error" → frameGet f "thread_id" = none) := by
  intro f hf
  cases exn with
  | none =>
    rw [show event_generator thread_id none
          = (pySplit example_response).map (fun word => tokenFrame word thread_id)
            ++ [doneFrame thread_id] from rfl] at hf
    rcases List.mem_append.mp hf with hf | hf
    · obtain ⟨w, _, rfl⟩ := List.mem_map.mp hf
      exact ⟨Or.inl rfl, fun _ => rfl,
        fun hh => absurd hh (by decide : ¬ (some "token" = some "error"))⟩
    · rw [List.mem_singleton.mp hf]
      exact ⟨Or.inr (Or.inl rfl), fun _ => rfl,
        fun hh => absurd hh (by decide : ¬ (some "done" = some "error"))⟩
  | some p =>
    obtain ⟨k, msg⟩ := p
    rw [show event_generator thread_id (some (k, msg))
          = ((pySplit example_response).take k).map (fun word => tokenFrame word thread_id)
            ++ [errorFrame msg] from rfl] at hf
    rcases List.mem_append.mp hf with hf | hf
    · obtain ⟨w, _, rfl⟩ := List.mem_map.mp hf
      exact ⟨Or.inl rfl, fun _ => rfl,
        fun hh => absurd hh (by decide : ¬ (some "token" = some "error"))⟩
    · rw [List.mem_singleton.mp hf]
      exact ⟨Or.inr (Or.inr rfl), fun hne => absurd rfl hne, fun _ => rfl⟩

/-- C5 witness: the error frame of a concrete failing stream. -/
theorem stream_frame_shape_witness :
    frameGet (errorFrame "x") "thread_id" = none :=
  (stream_frame_shape "t9" (some (0, "x")) (errorFrame "x") (by decide)).2.2 rfl

/-- C6: DELETE /api/history/{thread_id} reports success in every case,
removes the session entirely, is a no-op on an unknown (or already
cleared) identifier, and clearing twice equals clearing once. -/
theorem clear_history_removes_and_idempotent (thread_id : String) (s : Store)
    (hnd : (storeKeys s).Nodup) :
    (clear_historyRun thread_id s).1.status = "success" ∧
    storeGet (clear_historyRun thread_id s).2 thread_id = none ∧
    (storeGet s thread_id = none → (clear_historyRun thread_id s).2 = s) ∧
    (clear_historyRun thread_id (clear_historyRun thread_id s).2).2
      = (clear_historyRun thread_id s).2 := by
  by_cases hh : (storeGet s thread_id).isSome
  · have h2 : storeGet (storeErase s thread_id) thread_id = none :=
      storeGet_storeErase_self _ _ hnd
    refine ⟨by simp [clear_historyRun, hh], ?_, ?_, ?_⟩
    · simpa [clear_historyRun, hh] using h2
    · intro h0
      rw [h0] at hh
      simp at hh
    · simp [clear_historyRun, hh, h2]
  · have h0 : storeGet s thread_id = none := by
      cases hcase : storeGet s thread_id with
      | none => rfl
      | some v => rw [hcase] at hh; simp at hh
    refine ⟨by simp [clear_historyRun, hh], ?_, fun _ => by simp [clear_historyRun, hh], ?_⟩
    · simpa [clear_historyRun, hh] using h0
    · simp [clear_historyRun, hh]

/-- C6 witness: clearing "t1" from a store holding it. -/
theorem clear_history_removes_and_idempotent_witness :
    (clear_historyRun "t1" [("t1", [])]).1.status = "success" ∧
    storeGet (clear_historyRun "t1" [("t1", [])]).2 "t1" = none ∧
    (storeGet [("t1", [])] "t1" = none → (clear_historyRun "t1" [("t1", [])]).2 = [("t1", [])]) ∧
    (clear_historyRun "t1" (clear_historyRun "t1" [("t1", [])]).2).2
      = (clear_historyRun "t1" [("t1", [])]).2 :=
  clear_history_removes_and_idempotent "t1" [("t1", [])] (by decide)

/-- C7: for a known session identifier, a POST /api/chat turn keeps the
existing history and appends to its tail: the stored history is never
reset or replaced by an empty one; only an unknown identifier leads to a
fresh empty session being created (and then filled by the turn's pair).
Identifiers are nonempty as in C2. -/
theorem chat_ensure_idempotent_for_known (tid genId ts1 ts2 msg : String) (s : Store)
    (hne : tid ≠ "") :
    (∀ h, storeGet s tid = some h →
      storeGet (chatRun ⟨msg, some tid⟩ genId ts1 ts2 s).2 tid
        = some (h ++ [userMsg msg ts1, asstMsg msg ts2])) ∧
    (storeGet s tid = none →
      storeGet (chatRun ⟨msg, some tid⟩ genId ts1 ts2 s).2 tid
        = some [userMsg msg ts1, asstMsg msg ts2]) := by
  have hself : storeGet (chatRun ⟨msg, some tid⟩ genId ts1 ts2 s).2 tid
      = some (((storeGet s tid).getD []) ++ [userMsg msg ts1, asstMsg msg ts2]) := by
    simpa [pyOr_some_ne tid _ hne] using
      chatRun_storeGet_self ⟨msg, some tid⟩ genId ts1 ts2 s
  constructor
  · intro h hsome
    rw [hself, hsome]
    rfl
  · intro hnone
    rw [hself, hnone]
    rfl

/-- C7 witness: a second turn on session "t1" extends its existing
one-turn history instead of resetting it. -/
theorem chat_ensure_idempotent_for_known_witness :
    storeGet (chatRun ⟨"hi", some "t1"⟩ "g" "a3" "a4"
        [("t1", [userMsg "x" "a1", asstMsg "x" "a2"])]).2 "t1"
      = some ([userMsg "x" "a1", asstMsg "x" "a2"]
          ++ [userMsg "hi" "a3", asstMsg "hi" "a4"]) :=
  (chat_ensure_idempotent_for_known "t1" "g" "a3" "a4" "hi"
      [("t1", [userMsg "x" "a1", asstMsg "x" "a2"])] (by decide)).1
    [userMsg "x" "a1", asstMsg "x" "a2"] rfl

/-- C8: under a monotone clock and fresh uuids (okOp/okRun), every reachable
store satisfies the session invariant: session histories strictly
alternate user/assistant and have non-decreasing timestamps; and every
single operation either leaves an existing session's messages untouched
(possibly appending after them) or removes the session wholesale: no
already-appended message is ever mutated. -/
theorem session_history_invariant :
    (∀ ops s, Inv s → okRun s ops → Inv (runOps s ops)) ∧
    (∀ s op tid h, Inv s → okOp s op → storeGet s tid = some h →
      storeGet (applyOp s op) tid = none ∨
        ∃ tl, storeGet (applyOp s op) tid = some (h ++ tl)) :=
  ⟨fun ops s hs hok => runOps_Inv ops s hs hok,
   fun s op tid h hs hop hget => applyOp_extends s op hs hop tid h hget⟩

/-- C8 witness: the invariant after one concrete chat turn from the empty
store, and message preservation under a concrete clear. -/
theorem session_history_invariant_witness :
    Inv (runOps [] [Op.chatOp "hello" (some "t1") "g" "2024-01-01T10:00:00" "2024-01-01T10:00:01"]) ∧
    (storeGet (applyOp [("t1", [userMsg "hi" "b1", asstMsg "hi" "b2"])] (Op.clearOp "t1")) "t1" = none ∨
      ∃ tl, storeGet (applyOp [("t1", [userMsg "hi" "b1", asstMsg "hi" "b2"])] (Op.clearOp "t1")) "t1"
        = some ([userMsg "hi" "b1", asstMsg "hi" "b2"] ++ tl)) := by
  constructor
  · refine session_history_invariant.1
      [Op.chatOp "hello" (some "t1") "g" "2024-01-01T10:00:00" "2024-01-01T10:00:01"] []
      ⟨by simp [storeKeys], ?_⟩ ⟨⟨by decide, ?_⟩, trivial⟩
    · intro tid h hk
      simp [storeGet] at hk
    · intro m hm
      simp [storeMsgs] at hm
  · refine session_history_invariant.2 _ (Op.clearOp "t1") "t1" _ ⟨by decide, ?_⟩ trivial rfl
    intro tid h hk
    simp only [storeGet] at hk
    by_cases ht : "t1" = tid
    · rw [if_pos ht] at hk
      injection hk with hk
      subst hk
      constructor
      · decide
      · exact List.chain'_pair.mpr (by decide)
    · rw [if_neg ht] at hk
      cases hk

/-- C9: the POST /api/chat response text and image path are a function of
the message text alone: any two requests with the same message receive the
same response and image path, whatever their thread ids, generated uuids,
timestamps, and whatever the current contents of the conversation store. -/
theorem chat_response_depends_only_on_message (m : String) (tid1 tid2 : Option String)
    (g1 g2 a1 b1 a2 b2 : String) (s1 s2 : Store) :
    (chatRun ⟨m, tid1⟩ g1 a1 b1 s1).1.response
        = (chatRun ⟨m, tid2⟩ g2 a2 b2 s2).1.response ∧
    (chatRun ⟨m, tid1⟩ g1 a1 b1 s1).1.image_path
        = (chatRun ⟨m, tid2⟩ g2 a2 b2 s2).1.image_path :=
  ⟨rfl, rfl⟩

/-- C10: GET /api/history/{thread_id} never modifies the conversation
store (known or unknown id), and on an unknown id it reports message
count 0 with an empty message list. -/
theorem get_history_preserves_store (thread_id : String) (s : Store) :
    (get_historyRun thread_id s).2 = s ∧
    (storeGet s thread_id = none →
      (get_historyRun thread_id s).1 = ⟨thread_id, 0, []⟩) := by
  refine ⟨rfl, fun h => ?_⟩
  simp [get_historyRun, h]

/-- C10 witness: unknown id "ghost" against a store holding only "t1". -/
theorem get_history_preserves_store_witness :
    (get_historyRun "ghost" [("t1", [])]).2 = [("t1", [])] ∧
    (get_historyRun "ghost" [("t1", [])]).1 = ⟨"ghost", 0, []⟩ :=
  ⟨(get_history_preserves_store "ghost" [("t1", [])]).1,
   (get_history_preserves_store "ghost" [("t1", [])]).2 (by decide)⟩

end NutriBuddy
